import Mathlib

/-!
Verification of the telemetry packet codec (src/protocol/protocol.py).

Shallow embedding conventions:
* A byte buffer is a `List Nat`; a genuine byte buffer satisfies `∀ x ∈ b, x < 256`.
* `struct.pack` range-checks every integer argument against its format width
  (Python 3 raises `struct.error` on out-of-range values); this is modelled by
  the `packU8`/`packU16`/`packU32` guards returning `CodecError.structError`.
* `struct.unpack` requires the supplied slice to have exactly the format's
  size; a short slice raises `struct.error`, modelled the same way.
* A sensor reading's `value` (a Python float written with format `!f`) is
  modelled by the 32-bit big-endian IEEE-754 single-precision bit pattern it
  puts on the wire, i.e. a `Nat` below `2 ^ 32`; encoding writes those four
  bytes and decoding reads them back, so byte transport is exact on this
  representation.
* Python exceptions are modelled by `Except CodecError`:
  `tooShortHeader` is `ValueError("Data too short for header")`,
  `payloadTooLarge` is `ValueError("Packet exceeds payload limit")`,
  `structError` is `struct.error`.
-/

def MSG_INIT : Nat := 0x00
def MSG_DATA : Nat := 0x01

def HEADER_SIZE : Nat := 12
def READING_SIZE : Nat := 5
def PAYLOAD_LIMIT : Nat := 200

structure SensorReading where
  sensor_type : Nat
  value : Nat
deriving Repr, DecidableEq

structure TelemetryPacket where
  version : Nat
  msg_type : Nat
  device_id : Nat
  seq_num : Nat
  timestamp : Nat
  readings : List SensorReading
deriving Repr, DecidableEq

inductive CodecError where
  | structError
  | tooShortHeader
  | payloadTooLarge
deriving Repr, DecidableEq

deriving instance DecidableEq for Except

/-- Big-endian value of a byte list, as computed by `struct.unpack` for the
unsigned formats `B`, `H`, `I` on a slice of the right size. -/
def beNat (bs : List Nat) : Nat := bs.foldl (fun acc b => acc * 256 + b) 0

/-- Model of `struct.pack` format `B`: one byte, rejecting out-of-range. -/
def packU8 (n : Nat) : Except CodecError (List Nat) :=
  if n < 2 ^ 8 then .ok [n] else .error .structError

/-- Model of `struct.pack` format `H` (big-endian): two bytes, rejecting out-of-range. -/
def packU16 (n : Nat) : Except CodecError (List Nat) :=
  if n < 2 ^ 16 then .ok [n / 2 ^ 8, n % 256] else .error .structError

/-- Model of `struct.pack` format `I` (big-endian): four bytes, rejecting out-of-range. -/
def packU32 (n : Nat) : Except CodecError (List Nat) :=
  if n < 2 ^ 32 then .ok [n / 2 ^ 24, n / 2 ^ 16 % 256, n / 2 ^ 8 % 256, n % 256]
  else .error .structError

/-- Embedding of `encode_header`: `struct.pack('!BBHII', version, msg_type,
device_id, seq_num, timestamp)`; any out-of-range argument raises `struct.error`. -/
def encode_header (version msg_type device_id seq_num timestamp : Nat) :
    Except CodecError (List Nat) :=
  match packU8 version, packU8 msg_type, packU16 device_id,
        packU32 seq_num, packU32 timestamp with
  | .ok b0, .ok b1, .ok b2, .ok b3, .ok b4 => .ok (b0 ++ b1 ++ b2 ++ b3 ++ b4)
  | _, _, _, _, _ => .error .structError

/-- Embedding of `encode_reading`: `struct.pack('!Bf', sensor_type, value)`,
with `value` the 32-bit single-precision bit pattern (see file comment). -/
def encode_reading (sensor_type value : Nat) : Except CodecError (List Nat) :=
  match packU8 sensor_type, packU32 value with
  | .ok b0, .ok bv => .ok (b0 ++ bv)
  | _, _ => .error .structError

/-- The `for reading in packet.readings` loop of `encode_packet`, concatenating
each reading's 5-byte encoding in sequence order; an error aborts the whole call. -/
def encodeReadings : List SensorReading → Except CodecError (List Nat)
  | [] => .ok []
  | r :: rs =>
    match encode_reading r.sensor_type r.value with
    | .error e => .error e
    | .ok b =>
      match encodeReadings rs with
      | .error e => .error e
      | .ok bs => .ok (b ++ bs)

/-- Embedding of `encode_packet`: header first, then (for `MSG_DATA` only) the
size-ceiling check, the count byte, and the readings in order. -/
def encode_packet (p : TelemetryPacket) : Except CodecError (List Nat) :=
  match encode_header p.version p.msg_type p.device_id p.seq_num p.timestamp with
  | .error e => .error e
  | .ok header =>
    if p.msg_type = MSG_DATA then
      if HEADER_SIZE + 1 + p.readings.length * READING_SIZE > PAYLOAD_LIMIT then
        .error .payloadTooLarge
      else
        match packU8 p.readings.length, encodeReadings p.readings with
        | .ok countByte, .ok body => .ok (header ++ countByte ++ body)
        | _, _ => .error .structError
    else
      .ok header

/-- Field extraction of `struct.unpack('!BBHII', d)` on a 12-byte slice. -/
def unpack_BBHII (d : List Nat) : Nat × Nat × Nat × Nat × Nat :=
  (beNat (d.take 1), beNat ((d.drop 1).take 1), beNat ((d.drop 2).take 2),
   beNat ((d.drop 4).take 4), beNat ((d.drop 8).take 4))

/-- Embedding of `decode_header`: rejects buffers shorter than 12 bytes, then
unpacks the five header fields from the first 12 bytes. -/
def decode_header (data : List Nat) : Except CodecError (Nat × Nat × Nat × Nat × Nat) :=
  if data.length < HEADER_SIZE then .error .tooShortHeader
  else .ok (unpack_BBHII (data.take HEADER_SIZE))

/-- Embedding of `decode_reading`: `struct.unpack('!Bf', data[:5])`, which
raises `struct.error` unless the slice `data[:5]` has exactly 5 bytes. -/
def decode_reading (data : List Nat) : Except CodecError (Nat × Nat) :=
  if READING_SIZE ≤ (data.take READING_SIZE).length then
    .ok (beNat (data.take 1), beNat ((data.drop 1).take 4))
  else .error .structError

/-- The `for _ in range(count)` loop of `decode_packet`: decode the 5-byte
slice at `offset`, advance by 5, repeat; the first error aborts the call. -/
def decodeReadingsLoop (data : List Nat) (offset : Nat) :
    Nat → Except CodecError (List SensorReading)
  | 0 => .ok []
  | n + 1 =>
    match decode_reading ((data.drop offset).take READING_SIZE) with
    | .error e => .error e
    | .ok (st, v) =>
      match decodeReadingsLoop data (offset + READING_SIZE) n with
      | .error e => .error e
      | .ok rest => .ok (⟨st, v⟩ :: rest)

/-- Embedding of `decode_packet`: decode the header, then, whenever the buffer
is longer than 12 bytes (regardless of `msg_type`), read the count byte at
offset 12 and decode that many readings starting at offset 13. -/
def decode_packet (data : List Nat) : Except CodecError TelemetryPacket :=
  match decode_header data with
  | .error e => .error e
  | .ok (version, msg_type, device_id, seq_num, timestamp) =>
    if data.length > HEADER_SIZE then
      match decodeReadingsLoop data (HEADER_SIZE + 1)
          (beNat ((data.drop HEADER_SIZE).take 1)) with
      | .error e => .error e
      | .ok readings => .ok ⟨version, msg_type, device_id, seq_num, timestamp, readings⟩
    else
      .ok ⟨version, msg_type, device_id, seq_num, timestamp, []⟩

/-- Number of `decode_reading` calls the decode loop performs (the failing
call, if any, is counted and stops the loop). -/
def decodeReadingCalls (data : List Nat) (offset : Nat) : Nat → Nat
  | 0 => 0
  | n + 1 =>
    match decode_reading ((data.drop offset).take READING_SIZE) with
    | .error _ => 1
    | .ok _ => 1 + decodeReadingCalls data (offset + READING_SIZE) n

/-- Number of `decode_reading` calls a whole `decode_packet` call performs. -/
def decodePacketReadingCalls (data : List Nat) : Nat :=
  match decode_header data with
  | .error _ => 0
  | .ok _ =>
    if data.length > HEADER_SIZE then
      decodeReadingCalls data (HEADER_SIZE + 1) (beNat ((data.drop HEADER_SIZE).take 1))
    else 0

/-- Well-formedness of a reading per the data model: `sensor_type` is an
unsigned 8-bit code and `value` a 32-bit single-precision bit pattern. -/
abbrev WfReading (r : SensorReading) : Prop :=
  r.sensor_type < 2 ^ 8 ∧ r.value < 2 ^ 32

/-- Well-formedness of the five header fields per their declared widths. -/
abbrev WfHeader (p : TelemetryPacket) : Prop :=
  p.version < 2 ^ 8 ∧ p.msg_type < 2 ^ 8 ∧ p.device_id < 2 ^ 16 ∧
  p.seq_num < 2 ^ 32 ∧ p.timestamp < 2 ^ 32

/-- Well-formedness of a whole packet per the data model. -/
abbrev WfPacket (p : TelemetryPacket) : Prop :=
  WfHeader p ∧ ∀ r ∈ p.readings, WfReading r

/-- The 12 header bytes produced by a successful `encode_header`. -/
def headerBytes (v m d s t : Nat) : List Nat :=
  [v, m, d / 2 ^ 8, d % 256,
   s / 2 ^ 24, s / 2 ^ 16 % 256, s / 2 ^ 8 % 256, s % 256,
   t / 2 ^ 24, t / 2 ^ 16 % 256, t / 2 ^ 8 % 256, t % 256]

/-- The 5 bytes produced by a successful `encode_reading`. -/
def readingBytes (r : SensorReading) : List Nat :=
  [r.sensor_type, r.value / 2 ^ 24, r.value / 2 ^ 16 % 256,
   r.value / 2 ^ 8 % 256, r.value % 256]

/-- The byte sequence produced by a successful `encodeReadings`. -/
def readingsBytes : List SensorReading → List Nat
  | [] => []
  | r :: rs => readingBytes r ++ readingsBytes rs

example : encode_packet ⟨1, 0, 1001, 0, 1234567890, []⟩ =
    .ok [1, 0, 3, 233, 0, 0, 0, 0, 73, 150, 2, 210] := by decide

example : decode_packet [1, 0, 3, 233, 0, 0, 0, 0, 73, 150, 2, 210] =
    .ok ⟨1, 0, 1001, 0, 1234567890, []⟩ := by decide

theorem packU8_ok {n : Nat} (h : n < 2 ^ 8) : packU8 n = .ok [n] := by
  unfold packU8
  rw [if_pos h]

theorem packU16_ok {n : Nat} (h : n < 2 ^ 16) :
    packU16 n = .ok [n / 2 ^ 8, n % 256] := by
  unfold packU16
  rw [if_pos h]

theorem packU32_ok {n : Nat} (h : n < 2 ^ 32) :
    packU32 n = .ok [n / 2 ^ 24, n / 2 ^ 16 % 256, n / 2 ^ 8 % 256, n % 256] := by
  unfold packU32
  rw [if_pos h]

theorem beNat_one (a : Nat) : beNat [a] = a := by
  simp [beNat]

theorem beNat_two (n : Nat) : beNat [n / 2 ^ 8, n % 256] = n := by
  simp only [beNat, List.foldl]
  omega

theorem beNat_four (n : Nat) :
    beNat [n / 2 ^ 24, n / 2 ^ 16 % 256, n / 2 ^ 8 % 256, n % 256] = n := by
  simp only [beNat, List.foldl]
  omega

theorem headerBytes_length (v m d s t : Nat) : (headerBytes v m d s t).length = 12 := rfl

theorem encode_header_ok {v m d s t : Nat} (hv : v < 2 ^ 8) (hm : m < 2 ^ 8)
    (hd : d < 2 ^ 16) (hs : s < 2 ^ 32) (ht : t < 2 ^ 32) :
    encode_header v m d s t = .ok (headerBytes v m d s t) := by
  unfold encode_header
  rw [packU8_ok hv, packU8_ok hm, packU16_ok hd, packU32_ok hs, packU32_ok ht]
  rfl

theorem unpack_headerBytes (v m d s t : Nat) :
    unpack_BBHII (headerBytes v m d s t) = (v, m, d, s, t) := by
  show (beNat [v], beNat [m], beNat [d / 2 ^ 8, d % 256],
        beNat [s / 2 ^ 24, s / 2 ^ 16 % 256, s / 2 ^ 8 % 256, s % 256],
        beNat [t / 2 ^ 24, t / 2 ^ 16 % 256, t / 2 ^ 8 % 256, t % 256]) = (v, m, d, s, t)
  rw [beNat_one, beNat_one, beNat_two, beNat_four, beNat_four]

theorem decode_header_headerBytes (v m d s t : Nat) (rest : List Nat) :
    decode_header (headerBytes v m d s t ++ rest) = .ok (v, m, d, s, t) := by
  unfold decode_header
  rw [if_neg (by simp [headerBytes, HEADER_SIZE]),
    show HEADER_SIZE = (headerBytes v m d s t).length from rfl,
    List.take_left, unpack_headerBytes]

theorem readingBytes_length (r : SensorReading) : (readingBytes r).length = 5 := rfl

theorem encode_reading_ok {r : SensorReading} (h : WfReading r) :
    encode_reading r.sensor_type r.value = .ok (readingBytes r) := by
  unfold encode_reading
  rw [packU8_ok h.1, packU32_ok h.2]
  rfl

theorem encodeReadings_ok {rs : List SensorReading} (h : ∀ r ∈ rs, WfReading r) :
    encodeReadings rs = .ok (readingsBytes rs) := by
  induction rs with
  | nil => rfl
  | cons r rs ih =>
    show (match encode_reading r.sensor_type r.value with
      | .error e => .error e
      | .ok b =>
        match encodeReadings rs with
        | .error e => .error e
        | .ok bs => .ok (b ++ bs)) = Except.ok (readingsBytes (r :: rs))
    rw [encode_reading_ok (h r (List.mem_cons_self r rs)),
      ih (fun x hx => h x (List.mem_cons_of_mem r hx))]
    rfl

theorem readingsBytes_length (rs : List SensorReading) :
    (readingsBytes rs).length = 5 * rs.length := by
  induction rs with
  | nil => rfl
  | cons r rs ih =>
    simp only [readingsBytes, List.length_append, readingBytes_length, ih, List.length_cons]
    ring

theorem decode_reading_readingBytes (r : SensorReading) :
    decode_reading (readingBytes r) = .ok (r.sensor_type, r.value) := by
  unfold decode_reading
  rw [if_pos (show READING_SIZE ≤ (List.take READING_SIZE (readingBytes r)).length from
    Nat.le_refl 5)]
  show Except.ok (beNat [r.sensor_type],
    beNat [r.value / 2 ^ 24, r.value / 2 ^ 16 % 256, r.value / 2 ^ 8 % 256, r.value % 256]) = _
  rw [beNat_one, beNat_four]

theorem decodeReadingsLoop_encoded (rs : List SensorReading) :
    ∀ (pre rest : List Nat),
      decodeReadingsLoop (pre ++ (readingsBytes rs ++ rest)) pre.length rs.length = .ok rs := by
  induction rs with
  | nil => intro pre rest; rfl
  | cons r rs ih =>
    intro pre rest
    have hassoc : pre ++ (readingsBytes (r :: rs) ++ rest)
        = pre ++ (readingBytes r ++ (readingsBytes rs ++ rest)) := by
      simp [readingsBytes]
    have h1 : ((pre ++ (readingBytes r ++ (readingsBytes rs ++ rest))).drop pre.length).take
        READING_SIZE = readingBytes r := by
      rw [List.drop_left,
        List.take_left' (show (readingBytes r).length = READING_SIZE from rfl)]
    have h2 : decodeReadingsLoop (pre ++ (readingBytes r ++ (readingsBytes rs ++ rest)))
        (pre.length + READING_SIZE) rs.length = .ok rs := by
      have h3 := ih (pre ++ readingBytes r) rest
      simpa [List.append_assoc, List.length_append, readingBytes_length, READING_SIZE] using h3
    rw [hassoc, List.length_cons]
    show (match decode_reading (((pre ++ (readingBytes r ++ (readingsBytes rs ++ rest))).drop
        pre.length).take READING_SIZE) with
      | .error e => .error e
      | .ok (st, v) =>
        match decodeReadingsLoop (pre ++ (readingBytes r ++ (readingsBytes rs ++ rest)))
            (pre.length + READING_SIZE) rs.length with
        | .error e => .error e
        | .ok rest => .ok (⟨st, v⟩ :: rest)) = Except.ok (r :: rs)
    rw [h1, decode_reading_readingBytes r, h2]

theorem packU8_ok_iff {n : Nat} {b : List Nat} :
    packU8 n = .ok b ↔ n < 2 ^ 8 ∧ b = [n] := by
  unfold packU8
  split
  · rename_i h
    exact ⟨fun he => ⟨h, (Except.ok.injEq _ _).mp he |>.symm⟩, fun he => he.2 ▸ rfl⟩
  · rename_i h
    exact ⟨fun he => Except.noConfusion he, fun he => absurd he.1 h⟩

theorem packU16_ok_iff {n : Nat} {b : List Nat} :
    packU16 n = .ok b ↔ n < 2 ^ 16 ∧ b = [n / 2 ^ 8, n % 256] := by
  unfold packU16
  split
  · rename_i h
    exact ⟨fun he => ⟨h, (Except.ok.injEq _ _).mp he |>.symm⟩, fun he => he.2 ▸ rfl⟩
  · rename_i h
    exact ⟨fun he => Except.noConfusion he, fun he => absurd he.1 h⟩

theorem packU32_ok_iff {n : Nat} {b : List Nat} :
    packU32 n = .ok b ↔
      n < 2 ^ 32 ∧ b = [n / 2 ^ 24, n / 2 ^ 16 % 256, n / 2 ^ 8 % 256, n % 256] := by
  unfold packU32
  split
  · rename_i h
    exact ⟨fun he => ⟨h, (Except.ok.injEq _ _).mp he |>.symm⟩, fun he => he.2 ▸ rfl⟩
  · rename_i h
    exact ⟨fun he => Except.noConfusion he, fun he => absurd he.1 h⟩

theorem encode_header_ok_iff {v m d s t : Nat} {bs : List Nat} :
    encode_header v m d s t = .ok bs ↔
      v < 2 ^ 8 ∧ m < 2 ^ 8 ∧ d < 2 ^ 16 ∧ s < 2 ^ 32 ∧ t < 2 ^ 32 ∧
        bs = headerBytes v m d s t := by
  constructor
  · intro h
    unfold encode_header at h
    split at h
    · rename_i b0 b1 b2 b3 b4 h0 h1 h2 h3 h4
      obtain ⟨hv, hb0⟩ := packU8_ok_iff.mp h0
      obtain ⟨hm, hb1⟩ := packU8_ok_iff.mp h1
      obtain ⟨hd, hb2⟩ := packU16_ok_iff.mp h2
      obtain ⟨hs, hb3⟩ := packU32_ok_iff.mp h3
      obtain ⟨ht, hb4⟩ := packU32_ok_iff.mp h4
      refine ⟨hv, hm, hd, hs, ht, ?_⟩
      cases h
      subst hb0 hb1 hb2 hb3 hb4
      rfl
    · cases h
  · rintro ⟨hv, hm, hd, hs, ht, rfl⟩
    exact encode_header_ok hv hm hd hs ht

theorem encode_header_length {v m d s t : Nat} {bs : List Nat}
    (h : encode_header v m d s t = .ok bs) : bs.length = 12 := by
  obtain ⟨-, -, -, -, -, rfl⟩ := encode_header_ok_iff.mp h
  rfl

theorem encode_reading_length {st v : Nat} {b : List Nat}
    (h : encode_reading st v = .ok b) : b.length = 5 := by
  unfold encode_reading at h
  split at h
  · rename_i b0 bv h0 h1
    obtain ⟨-, rfl⟩ := packU8_ok_iff.mp h0
    obtain ⟨-, rfl⟩ := packU32_ok_iff.mp h1
    cases h
    rfl
  · cases h

theorem encodeReadings_length {rs : List SensorReading} {bs : List Nat}
    (h : encodeReadings rs = .ok bs) : bs.length = 5 * rs.length := by
  induction rs generalizing bs with
  | nil =>
    unfold encodeReadings at h
    injection h with h2
    subst h2
    rfl
  | cons r rs ih =>
    unfold encodeReadings at h
    split at h
    · cases h
    · rename_i b h0
      split at h
      · cases h
      · rename_i bs2 h1
        injection h with h2
        subst h2
        simp only [List.length_append, encode_reading_length h0, ih h1, List.length_cons]
        ring

theorem decode_reading_isOk {data : List Nat} (h : 5 ≤ data.length) :
    decode_reading data = .ok (beNat (data.take 1), beNat ((data.drop 1).take 4)) := by
  unfold decode_reading
  rw [if_pos (show READING_SIZE ≤ (data.take READING_SIZE).length by
    simp only [READING_SIZE, List.length_take]
    omega)]

theorem decode_reading_err {data : List Nat} (h : data.length < 5) :
    decode_reading data = .error .structError := by
  unfold decode_reading
  rw [if_neg (show ¬ READING_SIZE ≤ (data.take READING_SIZE).length by
    simp only [READING_SIZE, List.length_take]
    omega)]

theorem decodeReadingsLoop_ok (n : Nat) :
    ∀ (data : List Nat) (offset : Nat), offset + 5 * n ≤ data.length →
      ∃ rs, decodeReadingsLoop data offset n = .ok rs ∧ rs.length = n := by
  induction n with
  | zero => intro data offset _; exact ⟨[], rfl, rfl⟩
  | succ n ih =>
    intro data offset h
    have hslice : 5 ≤ ((data.drop offset).take READING_SIZE).length := by
      simp only [READING_SIZE, List.length_take, List.length_drop]
      omega
    obtain ⟨rs, hrs, hlen⟩ := ih data (offset + READING_SIZE)
      (by simp only [READING_SIZE]; omega)
    refine ⟨⟨beNat (((data.drop offset).take READING_SIZE).take 1),
      beNat ((((data.drop offset).take READING_SIZE).drop 1).take 4)⟩ :: rs, ?_, ?_⟩
    · simp only [decodeReadingsLoop]
      rw [decode_reading_isOk hslice, hrs]
    · simp [hlen]

theorem decodeReadingsLoop_err (n : Nat) :
    ∀ (data : List Nat) (offset : Nat), 0 < n → data.length < offset + 5 * n →
      decodeReadingsLoop data offset n = .error .structError := by
  induction n with
  | zero => intro data offset h0 _; exact absurd h0 (by omega)
  | succ n ih =>
    intro data offset _ h
    simp only [decodeReadingsLoop]
    by_cases hs : data.length < offset + 5
    · rw [decode_reading_err (show ((data.drop offset).take READING_SIZE).length < 5 by
        simp only [READING_SIZE, List.length_take, List.length_drop]
        omega)]
    · have hn : 0 < n := by omega
      rw [decode_reading_isOk (show 5 ≤ ((data.drop offset).take READING_SIZE).length by
        simp only [READING_SIZE, List.length_take, List.length_drop]
        omega)]
      rw [ih data (offset + READING_SIZE) hn (by simp only [READING_SIZE]; omega)]

theorem decodeReadingsLoop_take (n : Nat) :
    ∀ (data : List Nat) (offset m : Nat), offset + 5 * n ≤ m →
      decodeReadingsLoop (data.take m) offset n = decodeReadingsLoop data offset n := by
  induction n with
  | zero => intro data offset m _; rfl
  | succ n ih =>
    intro data offset m h
    have hsl : ((data.take m).drop offset).take READING_SIZE
        = (data.drop offset).take READING_SIZE := by
      rw [List.drop_take, List.take_take]
      congr 1
      simp only [READING_SIZE]
      omega
    simp only [decodeReadingsLoop, hsl]
    cases decode_reading ((data.drop offset).take READING_SIZE) with
    | error e => rfl
    | ok sv =>
      obtain ⟨st, v⟩ := sv
      rw [ih data (offset + READING_SIZE) m (by simp only [READING_SIZE]; omega)]

theorem decodeReadingCalls_le (n : Nat) :
    ∀ (data : List Nat) (offset : Nat), decodeReadingCalls data offset n ≤ n := by
  induction n with
  | zero => intro data offset; exact Nat.le_refl 0
  | succ n ih =>
    intro data offset
    simp only [decodeReadingCalls]
    cases decode_reading ((data.drop offset).take READING_SIZE) with
    | error e =>
      show (1 : Nat) ≤ n + 1
      omega
    | ok sv =>
      show 1 + decodeReadingCalls data (offset + READING_SIZE) n ≤ n + 1
      have h2 := ih data (offset + READING_SIZE)
      omega

theorem encode_packet_nondata {p : TelemetryPacket} (hmt : p.msg_type ≠ MSG_DATA) :
    encode_packet p
      = encode_header p.version p.msg_type p.device_id p.seq_num p.timestamp := by
  unfold encode_packet
  cases hh : encode_header p.version p.msg_type p.device_id p.seq_num p.timestamp with
  | error e => rfl
  | ok header =>
    dsimp only
    rw [if_neg hmt]

theorem encode_packet_data_ok {p : TelemetryPacket} (hwf : WfPacket p)
    (hmt : p.msg_type = MSG_DATA) (hn : p.readings.length ≤ 37) :
    encode_packet p = .ok (headerBytes p.version p.msg_type p.device_id p.seq_num p.timestamp
      ++ [p.readings.length] ++ readingsBytes p.readings) := by
  obtain ⟨⟨hv, hm, hd, hs, ht⟩, hr⟩ := hwf
  unfold encode_packet
  rw [encode_header_ok hv hm hd hs ht]
  dsimp only
  rw [if_pos hmt,
    if_neg (show ¬ HEADER_SIZE + 1 + p.readings.length * READING_SIZE > PAYLOAD_LIMIT by
      simp only [HEADER_SIZE, READING_SIZE, PAYLOAD_LIMIT]
      omega),
    packU8_ok (show p.readings.length < 2 ^ 8 by omega), encodeReadings_ok hr]

theorem encode_packet_data_inv {p : TelemetryPacket} {bs : List Nat}
    (hmt : p.msg_type = MSG_DATA) (h : encode_packet p = .ok bs) :
    p.readings.length ≤ 37 ∧ bs.length = 13 + 5 * p.readings.length := by
  unfold encode_packet at h
  cases hh : encode_header p.version p.msg_type p.device_id p.seq_num p.timestamp with
  | error e =>
    rw [hh] at h
    cases h
  | ok header =>
    rw [hh] at h
    dsimp only at h
    rw [if_pos hmt] at h
    split at h
    · cases h
    · rename_i hsize
      split at h
      · rename_i cb body hcb hbody
        injection h with h2
        subst h2
        obtain ⟨-, rfl⟩ := packU8_ok_iff.mp hcb
        refine ⟨?_, ?_⟩
        · simp only [HEADER_SIZE, READING_SIZE, PAYLOAD_LIMIT] at hsize
          omega
        · simp only [List.length_append, encode_header_length hh,
            encodeReadings_length hbody, List.length_cons, List.length_nil]
      · cases h

theorem decode_header_isOk {b : List Nat} (h : 12 ≤ b.length) :
    decode_header b = .ok (unpack_BBHII (b.take HEADER_SIZE)) := by
  unfold decode_header
  rw [if_neg (show ¬ b.length < HEADER_SIZE by simp only [HEADER_SIZE]; omega)]

theorem decode_packet_data_frame (v m d s t : Nat) (rs : List SensorReading) :
    decode_packet (headerBytes v m d s t ++ [rs.length] ++ readingsBytes rs)
      = .ok ⟨v, m, d, s, t, rs⟩ := by
  have hassoc : headerBytes v m d s t ++ [rs.length] ++ readingsBytes rs
      = headerBytes v m d s t ++ ([rs.length] ++ readingsBytes rs) :=
    List.append_assoc _ _ _
  have hcount : beNat (((headerBytes v m d s t
      ++ ([rs.length] ++ readingsBytes rs)).drop HEADER_SIZE).take 1) = rs.length := by
    rw [List.drop_left' (show (headerBytes v m d s t).length = HEADER_SIZE from rfl),
      show (([rs.length] ++ readingsBytes rs).take 1) = [rs.length] from rfl, beNat_one]
  have hloop : decodeReadingsLoop (headerBytes v m d s t ++ ([rs.length] ++ readingsBytes rs))
      (HEADER_SIZE + 1) rs.length = .ok rs := by
    have h3 := decodeReadingsLoop_encoded rs (headerBytes v m d s t ++ [rs.length]) []
    simpa [List.append_assoc, List.length_append, headerBytes_length, HEADER_SIZE] using h3
  unfold decode_packet
  rw [hassoc, decode_header_headerBytes]
  dsimp only
  rw [if_pos (show (headerBytes v m d s t ++ ([rs.length] ++ readingsBytes rs)).length
      > HEADER_SIZE by
    simp only [List.length_append, headerBytes_length, List.length_cons, HEADER_SIZE]
    omega)]
  rw [hcount, hloop]

/-- Claim C1: for every packet with `msg_type = DATA`, 0 ≤ N ≤ 37 readings, all
field values within their declared widths (reading values given as 32-bit
single-precision bit patterns), decoding the encoding reproduces the five
header fields exactly and the readings sequence in the same order with the
same length and bit-identical values. -/
theorem c1_data_roundtrip (p : TelemetryPacket) (hwf : WfPacket p)
    (hmt : p.msg_type = MSG_DATA) (hn : p.readings.length ≤ 37) :
    Except.bind (encode_packet p) decode_packet = Except.ok p := by
  rw [encode_packet_data_ok hwf hmt hn]
  show decode_packet (headerBytes p.version p.msg_type p.device_id p.seq_num p.timestamp
    ++ [p.readings.length] ++ readingsBytes p.readings) = Except.ok p
  rw [decode_packet_data_frame]

/-- Witness for C1 at a concrete two-reading DATA packet (25.0f = 0x41C80000,
60.5f = 0x42720000). -/
theorem c1_data_roundtrip_witness :
    WfPacket ⟨1, 1, 1001, 1, 1234567890, [⟨1, 0x41C80000⟩, ⟨2, 0x42720000⟩]⟩ ∧
    (1 : Nat) = MSG_DATA ∧ (2 : Nat) ≤ 37 ∧
    Except.bind
      (encode_packet ⟨1, 1, 1001, 1, 1234567890, [⟨1, 0x41C80000⟩, ⟨2, 0x42720000⟩]⟩)
      decode_packet
      = Except.ok ⟨1, 1, 1001, 1, 1234567890, [⟨1, 0x41C80000⟩, ⟨2, 0x42720000⟩]⟩ :=
  ⟨by decide, rfl, by decide,
    c1_data_roundtrip ⟨1, 1, 1001, 1, 1234567890, [⟨1, 0x41C80000⟩, ⟨2, 0x42720000⟩]⟩
      (by decide) rfl (by decide)⟩

/-- Claim C2: whenever `encode_packet` succeeds, the frame has length exactly
12 for a non-DATA packet and exactly `13 + 5 * readings.length` for a DATA
packet. -/
theorem c2_frame_length_law (p : TelemetryPacket) (bs : List Nat)
    (h : encode_packet p = .ok bs) :
    (p.msg_type ≠ MSG_DATA → bs.length = 12) ∧
    (p.msg_type = MSG_DATA → bs.length = 13 + 5 * p.readings.length) := by
  constructor
  · intro hmt
    rw [encode_packet_nondata hmt] at h
    exact encode_header_length h
  · intro hmt
    exact (encode_packet_data_inv hmt h).2

/-- Witness for C2 at a concrete two-reading DATA packet and its 23-byte frame. -/
theorem c2_frame_length_law_witness :
    encode_packet ⟨1, 1, 1001, 1, 1234567890, [⟨1, 0⟩, ⟨2, 1⟩]⟩
      = .ok [1, 1, 3, 233, 0, 0, 0, 1, 73, 150, 2, 210, 2, 1, 0, 0, 0, 0, 2, 0, 0, 0, 1] ∧
    (((1 : Nat) ≠ MSG_DATA →
        ([1, 1, 3, 233, 0, 0, 0, 1, 73, 150, 2, 210, 2, 1, 0, 0, 0, 0, 2, 0, 0, 0, 1]
          : List Nat).length = 12) ∧
      ((1 : Nat) = MSG_DATA →
        ([1, 1, 3, 233, 0, 0, 0, 1, 73, 150, 2, 210, 2, 1, 0, 0, 0, 0, 2, 0, 0, 0, 1]
          : List Nat).length = 13 + 5 * ([⟨1, 0⟩, ⟨2, 1⟩] : List SensorReading).length)) :=
  ⟨by decide,
    c2_frame_length_law ⟨1, 1, 1001, 1, 1234567890, [⟨1, 0⟩, ⟨2, 1⟩]⟩
      [1, 1, 3, 233, 0, 0, 0, 1, 73, 150, 2, 210, 2, 1, 0, 0, 0, 0, 2, 0, 0, 0, 1]
      (by decide)⟩

/-- Claim C3: for a well-formed DATA packet, encoding fails with
`PayloadTooLarge` exactly when `12 + 1 + 5 * N > 200` (i.e. `N ≥ 38`), and
succeeds (producing a frame, no partial output on failure) otherwise. -/
theorem c3_size_ceiling (p : TelemetryPacket) (hwf : WfPacket p)
    (hmt : p.msg_type = MSG_DATA) :
    (encode_packet p = .error .payloadTooLarge ↔ 200 < 12 + 1 + 5 * p.readings.length) ∧
    (12 + 1 + 5 * p.readings.length ≤ 200 → ∃ bs, encode_packet p = .ok bs) := by
  obtain ⟨⟨hv, hm, hd, hs, ht⟩, hr⟩ := hwf
  by_cases hbig : 200 < 12 + 1 + 5 * p.readings.length
  · have herr : encode_packet p = .error .payloadTooLarge := by
      unfold encode_packet
      rw [encode_header_ok hv hm hd hs ht]
      dsimp only
      rw [if_pos hmt, if_pos (show HEADER_SIZE + 1 + p.readings.length * READING_SIZE
          > PAYLOAD_LIMIT by simp only [HEADER_SIZE, READING_SIZE, PAYLOAD_LIMIT]; omega)]
    exact ⟨⟨fun _ => hbig, fun _ => herr⟩, fun hle => absurd hbig (by omega)⟩
  · have hok := encode_packet_data_ok ⟨⟨hv, hm, hd, hs, ht⟩, hr⟩ hmt (by omega)
    refine ⟨⟨fun he => ?_, fun hgt => absurd hgt hbig⟩, fun _ => ⟨_, hok⟩⟩
    rw [hok] at he
    cases he

/-- Witness for C3 at the two boundary packets: 38 readings are rejected with
`PayloadTooLarge` (frame would be 203 bytes), 37 readings (200-byte frame)
succeed. -/
theorem c3_size_ceiling_witness :
    encode_packet ⟨1, 1, 1, 0, 0, List.replicate 38 ⟨1, 0⟩⟩ = .error .payloadTooLarge ∧
    ∃ bs, encode_packet ⟨1, 1, 1, 0, 0, List.replicate 37 ⟨1, 0⟩⟩ = .ok bs :=
  ⟨(c3_size_ceiling ⟨1, 1, 1, 0, 0, List.replicate 38 ⟨1, 0⟩⟩ (by decide) rfl).1.mpr
      (by decide),
   (c3_size_ceiling ⟨1, 1, 1, 0, 0, List.replicate 37 ⟨1, 0⟩⟩ (by decide) rfl).2
      (by decide)⟩

/-- Claim C4: every buffer of length 0 through 11 is rejected by
`decode_header`, and hence by `decode_packet`, with the TooShort error; no
packet is returned. -/
theorem c4_short_buffer (b : List Nat) (h : b.length < 12) :
    decode_header b = .error .tooShortHeader ∧
    decode_packet b = .error .tooShortHeader := by
  have hh : decode_header b = .error .tooShortHeader := by
    unfold decode_header
    rw [if_pos (show b.length < HEADER_SIZE by simp only [HEADER_SIZE]; omega)]
  refine ⟨hh, ?_⟩
  unfold decode_packet
  rw [hh]

/-- Witness for C4 at an 11-byte buffer. -/
theorem c4_short_buffer_witness :
    (List.replicate 11 255).length < 12 ∧
    (decode_header (List.replicate 11 255) = .error .tooShortHeader ∧
      decode_packet (List.replicate 11 255) = .error .tooShortHeader) :=
  ⟨by decide, c4_short_buffer (List.replicate 11 255) (by decide)⟩

/-- Claim C5: for every packet with in-width header fields and
`msg_type ≠ DATA`, regardless of its readings (even a non-empty list),
encoding never fails, returns exactly the 12-byte header with no reading
section, and decoding that frame yields the same header fields with an empty
readings sequence. -/
theorem c5_nondata_roundtrip (p : TelemetryPacket) (hwh : WfHeader p)
    (hmt : p.msg_type ≠ MSG_DATA) :
    encode_packet p
        = .ok (headerBytes p.version p.msg_type p.device_id p.seq_num p.timestamp) ∧
    (headerBytes p.version p.msg_type p.device_id p.seq_num p.timestamp).length = 12 ∧
    decode_packet (headerBytes p.version p.msg_type p.device_id p.seq_num p.timestamp)
      = .ok ⟨p.version, p.msg_type, p.device_id, p.seq_num, p.timestamp, []⟩ := by
  obtain ⟨hv, hm, hd, hs, ht⟩ := hwh
  refine ⟨?_, rfl, ?_⟩
  · rw [encode_packet_nondata hmt]
    exact encode_header_ok hv hm hd hs ht
  · have hh : decode_header
        (headerBytes p.version p.msg_type p.device_id p.seq_num p.timestamp)
        = .ok (p.version, p.msg_type, p.device_id, p.seq_num, p.timestamp) := by
      have h3 := decode_header_headerBytes p.version p.msg_type p.device_id p.seq_num
        p.timestamp []
      simpa using h3
    unfold decode_packet
    rw [hh]
    dsimp only
    rw [if_neg (show ¬ (headerBytes p.version p.msg_type p.device_id p.seq_num
        p.timestamp).length > HEADER_SIZE by simp [headerBytes, HEADER_SIZE])]

/-- Witness for C5 at an INIT packet carrying a non-empty readings list. -/
theorem c5_nondata_roundtrip_witness :
    WfHeader ⟨1, 0, 1001, 0, 1234567890, [⟨1, 99⟩]⟩ ∧
    (0 : Nat) ≠ MSG_DATA ∧
    (encode_packet ⟨1, 0, 1001, 0, 1234567890, [⟨1, 99⟩]⟩
        = .ok (headerBytes 1 0 1001 0 1234567890) ∧
      (headerBytes 1 0 1001 0 1234567890).length = 12 ∧
      decode_packet (headerBytes 1 0 1001 0 1234567890)
        = .ok ⟨1, 0, 1001, 0, 1234567890, []⟩) :=
  ⟨by decide, by decide,
    c5_nondata_roundtrip ⟨1, 0, 1001, 0, 1234567890, [⟨1, 99⟩]⟩ (by decide) (by decide)⟩

/-- Claim C6: every buffer of exactly 12 bytes decodes successfully to a packet
with an empty readings sequence, regardless of the `msg_type` byte: buffer
length, not `msg_type`, triggers reading-section parsing. -/
theorem c6_twelve_byte_decode (b : List Nat) (h : b.length = 12) :
    decode_packet b = .ok ⟨beNat (b.take 1), beNat ((b.drop 1).take 1),
      beNat ((b.drop 2).take 2), beNat ((b.drop 4).take 4),
      beNat ((b.drop 8).take 4), []⟩ := by
  have htake : b.take HEADER_SIZE = b := by
    show b.take 12 = b
    rw [← h]
    exact List.take_length b
  have hh : decode_header b = .ok (beNat (b.take 1), beNat ((b.drop 1).take 1),
      beNat ((b.drop 2).take 2), beNat ((b.drop 4).take 4), beNat ((b.drop 8).take 4)) := by
    rw [decode_header_isOk (by omega), htake]
    rfl
  unfold decode_packet
  rw [hh]
  dsimp only
  rw [if_neg (show ¬ b.length > HEADER_SIZE by simp only [HEADER_SIZE]; omega)]

/-- Witness for C6 at a 12-byte buffer whose `msg_type` byte is DATA (= 1):
decoding still returns an empty readings sequence. -/
theorem c6_twelve_byte_decode_witness :
    ([1, 1, 0, 5, 0, 0, 0, 9, 0, 0, 0, 7] : List Nat).length = 12 ∧
    decode_packet [1, 1, 0, 5, 0, 0, 0, 9, 0, 0, 0, 7] = .ok ⟨1, 1, 5, 9, 7, []⟩ :=
  ⟨rfl, c6_twelve_byte_decode [1, 1, 0, 5, 0, 0, 0, 9, 0, 0, 0, 7] rfl⟩

/-- A 13-byte buffer whose count byte declares one reading that is absent. -/
def c7buf : List Nat := List.replicate 12 0 ++ [1]

/-- Counterexample for C7: on a buffer longer than 12 bytes but shorter than
`13 + 5 * count`, `decode_packet` fails with the struct unpack error raised by
`decode_reading` on a short slice, not with the TooShort (header) error the
claim names. -/
theorem c7_short_reading_counterexample :
    decode_packet c7buf = .error .structError ∧
    decode_packet c7buf ≠ .error .tooShortHeader := by
  refine ⟨by decide, by decide⟩

/-- Claim C7 (amended): for every buffer of length greater than 12, letting
`count` be the byte at offset 12, if the buffer length is less than
`13 + 5 * count` then `decode_packet` fails with the struct unpack error
(`struct.error` from slicing past the end), so it reports an error and never
returns a partial packet — but the error is not the TooShort header error. -/
theorem c7_truncated_fails (b : List Nat) (hlen : 12 < b.length)
    (hshort : b.length < 13 + 5 * beNat ((b.drop 12).take 1)) :
    decode_packet b = .error .structError := by
  have hc : 0 < beNat ((b.drop 12).take 1) := by omega
  have hc2 : 0 < beNat ((b.drop HEADER_SIZE).take 1) := by
    simp only [HEADER_SIZE]
    omega
  have hlt : b.length < (HEADER_SIZE + 1) + 5 * beNat ((b.drop HEADER_SIZE).take 1) := by
    simp only [HEADER_SIZE]
    omega
  have hl := decodeReadingsLoop_err (beNat ((b.drop HEADER_SIZE).take 1)) b
    (HEADER_SIZE + 1) hc2 hlt
  unfold decode_packet
  rw [decode_header_isOk (show 12 ≤ b.length by omega)]
  dsimp only [unpack_BBHII]
  rw [if_pos (show b.length > HEADER_SIZE by simp only [HEADER_SIZE]; omega), hl]

/-- Witness for C7 (amended) at a 14-byte buffer declaring three readings. -/
theorem c7_truncated_fails_witness :
    12 < (List.replicate 12 0 ++ [3, 7] : List Nat).length ∧
    (List.replicate 12 0 ++ [3, 7] : List Nat).length
      < 13 + 5 * beNat (((List.replicate 12 0 ++ [3, 7] : List Nat).drop 12).take 1) ∧
    decode_packet (List.replicate 12 0 ++ [3, 7]) = .error .structError :=
  ⟨by decide, by decide,
    c7_truncated_fails (List.replicate 12 0 ++ [3, 7]) (by decide) (by decide)⟩

/-- A 203-byte buffer whose count byte declares 38 readings, all present. -/
def c8buf : List Nat := List.replicate 12 0 ++ 38 :: List.replicate 190 0

set_option maxRecDepth 8000 in
/-- Counterexample for C8: a buffer whose count byte is 38 makes
`decode_packet` perform 38 reading-decode iterations, more than the 37 the
claim allows for every input. -/
theorem c8_38_iterations_counterexample :
    decodePacketReadingCalls c8buf = 38 ∧ ¬ decodePacketReadingCalls c8buf ≤ 37 := by
  refine ⟨by decide, by decide⟩

/-- Claim C8 (amended): every `decode_packet` call on a byte buffer performs at
most `count` ≤ 255 reading-decode iterations (the bound is the count byte, not
37), `encode_packet` iterates over at most 37 readings on any DATA packet it
accepts, and both are total functions, so each call is bounded and terminates. -/
theorem c8_iteration_bounds (data : List Nat) (p : TelemetryPacket) (bs : List Nat)
    (hb : ∀ x ∈ data, x < 256) (henc : encode_packet p = .ok bs)
    (hmt : p.msg_type = MSG_DATA) :
    decodePacketReadingCalls data ≤ 255 ∧ p.readings.length ≤ 37 := by
  refine ⟨?_, (encode_packet_data_inv hmt henc).1⟩
  unfold decodePacketReadingCalls
  cases hh : decode_header data with
  | error e => exact Nat.zero_le _
  | ok q =>
    dsimp only
    by_cases hlen : data.length > HEADER_SIZE
    · rw [if_pos hlen]
      have hcnt : beNat ((data.drop HEADER_SIZE).take 1) ≤ 255 := by
        cases hd : data.drop HEADER_SIZE with
        | nil => exact Nat.zero_le _
        | cons x xs =>
          have hx : x ∈ data := List.drop_subset HEADER_SIZE data
            (by rw [hd]; exact List.mem_cons_self x xs)
          have hx2 := hb x hx
          show beNat [x] ≤ 255
          rw [beNat_one]
          omega
      exact Nat.le_trans (decodeReadingCalls_le _ data (HEADER_SIZE + 1)) hcnt
    · rw [if_neg hlen]
      exact Nat.zero_le _

/-- Witness for C8 (amended) at the empty buffer and a one-reading DATA packet. -/
theorem c8_iteration_bounds_witness :
    (∀ x ∈ ([] : List Nat), x < 256) ∧
    encode_packet ⟨1, 1, 1, 1, 1, [⟨1, 0⟩]⟩
      = .ok [1, 1, 0, 1, 0, 0, 0, 1, 0, 0, 0, 1, 1, 1, 0, 0, 0, 0] ∧
    (1 : Nat) = MSG_DATA ∧
    (decodePacketReadingCalls [] ≤ 255 ∧
      ([⟨1, 0⟩] : List SensorReading).length ≤ 37) :=
  ⟨by decide, by decide, rfl,
    c8_iteration_bounds [] ⟨1, 1, 1, 1, 1, [⟨1, 0⟩]⟩
      [1, 1, 0, 1, 0, 0, 0, 1, 0, 0, 0, 1, 1, 1, 0, 0, 0, 0]
      (by decide) (by decide) rfl⟩

/-- Counterexample for C9: `encode_header` on the out-of-width version value
256 fails with `struct.error`; it neither truncates the field (which would
give the header of version 0) nor returns any 12-byte sequence. -/
theorem c9_overflow_rejected_counterexample :
    encode_header 256 0 0 0 0 = .error .structError ∧
    encode_header 256 0 0 0 0 ≠ .ok (headerBytes (256 % 256) 0 0 0 0) := by
  refine ⟨by decide, by decide⟩

/-- Claim C9 (amended): `encode_header` validates every field against its
declared width and rejects any out-of-range input with `struct.error` (it
never truncates); on in-range inputs it returns the 12-byte big-endian
encoding of the exact field values. -/
theorem c9_header_range_check (v m d s t : Nat) :
    encode_header v m d s t =
      (if v < 2 ^ 8 ∧ m < 2 ^ 8 ∧ d < 2 ^ 16 ∧ s < 2 ^ 32 ∧ t < 2 ^ 32 then
        .ok (headerBytes v m d s t)
      else .error .structError) ∧
    (headerBytes v m d s t).length = 12 := by
  refine ⟨?_, rfl⟩
  by_cases h : v < 2 ^ 8 ∧ m < 2 ^ 8 ∧ d < 2 ^ 16 ∧ s < 2 ^ 32 ∧ t < 2 ^ 32
  · obtain ⟨hv, hm, hd2, hs2, ht2⟩ := h
    rw [if_pos ⟨hv, hm, hd2, hs2, ht2⟩]
    exact encode_header_ok hv hm hd2 hs2 ht2
  · rw [if_neg h]
    unfold encode_header
    split
    · rename_i b0 b1 b2 b3 b4 h0 h1 h2 h3 h4
      exact absurd ⟨(packU8_ok_iff.mp h0).1, (packU8_ok_iff.mp h1).1,
        (packU16_ok_iff.mp h2).1, (packU32_ok_iff.mp h3).1, (packU32_ok_iff.mp h4).1⟩ h
    · rfl

/-- Claim C10: for every buffer longer than 12 bytes whose length covers the
declared reading section (`len ≥ 13 + 5 * count`, `count` being the byte at
offset 12, possibly exceeding 37 — no ceiling is enforced on decode),
`decode_packet` succeeds, and trailing bytes beyond `13 + 5 * count` never
affect the result: decoding the buffer equals decoding its prefix of that
length. -/
theorem c10_trailing_ignored (b : List Nat) (hlen : 12 < b.length)
    (hc : 13 + 5 * beNat ((b.drop 12).take 1) ≤ b.length) :
    (∃ p, decode_packet b = .ok p) ∧
    decode_packet (b.take (13 + 5 * beNat ((b.drop 12).take 1))) = decode_packet b := by
  have hh := decode_header_isOk (show 12 ≤ b.length by omega)
  obtain ⟨rs, hrs, -⟩ := decodeReadingsLoop_ok (beNat ((b.drop HEADER_SIZE).take 1)) b
    (HEADER_SIZE + 1) (by simp only [HEADER_SIZE]; omega)
  constructor
  · unfold decode_packet
    rw [hh]
    dsimp only [unpack_BBHII]
    rw [if_pos (show b.length > HEADER_SIZE by simp only [HEADER_SIZE]; omega), hrs]
    exact ⟨_, rfl⟩
  · have htake12 : (b.take (13 + 5 * beNat ((b.drop 12).take 1))).take HEADER_SIZE
        = b.take HEADER_SIZE := by
      rw [List.take_take]
      congr 1
      simp only [HEADER_SIZE]
      omega
    have hh2 : decode_header (b.take (13 + 5 * beNat ((b.drop 12).take 1)))
        = .ok (unpack_BBHII (b.take HEADER_SIZE)) := by
      rw [decode_header_isOk (show 12 ≤ (b.take (13 + 5 * beNat ((b.drop 12).take 1))).length
          by rw [List.length_take]; omega), htake12]
    have hdrop : ((b.take (13 + 5 * beNat ((b.drop 12).take 1))).drop HEADER_SIZE).take 1
        = (b.drop HEADER_SIZE).take 1 := by
      rw [List.drop_take, List.take_take]
      congr 1
      simp only [HEADER_SIZE]
      omega
    have hloopeq : decodeReadingsLoop (b.take (13 + 5 * beNat ((b.drop 12).take 1)))
        (HEADER_SIZE + 1) (beNat ((b.drop HEADER_SIZE).take 1))
        = decodeReadingsLoop b (HEADER_SIZE + 1) (beNat ((b.drop HEADER_SIZE).take 1)) := by
      apply decodeReadingsLoop_take
      simp only [HEADER_SIZE]
      omega
    unfold decode_packet
    rw [hh, hh2]
    dsimp only [unpack_BBHII]
    rw [if_pos (show (b.take (13 + 5 * beNat ((b.drop 12).take 1))).length > HEADER_SIZE by
        rw [List.length_take]; simp only [HEADER_SIZE]; omega),
      if_pos (show b.length > HEADER_SIZE by simp only [HEADER_SIZE]; omega)]
    rw [hdrop, hloopeq]

/-- A 206-byte buffer: 12 header bytes, count byte 38, 190 reading bytes, and
3 trailing garbage bytes. -/
def c10buf : List Nat := List.replicate 12 0 ++ 38 :: (List.replicate 190 0 ++ [7, 7, 7])

set_option maxRecDepth 8000 in
/-- Witness for C10 at a buffer with 38 declared readings (beyond the encode
ceiling of 37) and trailing garbage. -/
theorem c10_trailing_ignored_witness :
    12 < c10buf.length ∧
    13 + 5 * beNat ((c10buf.drop 12).take 1) ≤ c10buf.length ∧
    ((∃ p, decode_packet c10buf = .ok p) ∧
      decode_packet (c10buf.take (13 + 5 * beNat ((c10buf.drop 12).take 1)))
        = decode_packet c10buf) :=
  ⟨by decide, by decide, c10_trailing_ignored c10buf (by decide) (by decide)⟩
